import Mathlib

/-!
Verification development for the syntax-to-definition mapping layer of a
rust-analyzer fork (crates/hir/src/semantics/source_to_def.rs,
crates/hir-def/src/src.rs, crates/hir-def/src/dyn_map/def_to_src.rs and
friends).  Syntax nodes are identified by structural ids (`Nat`) inside a
`HirFileId`; semantic definition identifiers are an inductive `DefId`.
External collaborators (parser, expansion metadata, name resolution, body
lowering) are supplied by a `World` structure of functions, and the
operations of the subsystem are transcribed from the Rust source over that
world.
-/

namespace S2D

/-- A file identifier: either a real on-disk file or a synthetic file
produced by an expansion (Rust `HirFileId` = `FileId | MacroFileId`). -/
inductive HirFileId : Type
  | real (f : Nat)
  | exp (m : Nat)
deriving DecidableEq, Repr

/-- A value together with the file it comes from (Rust `InFile<T>`). -/
structure InFile (α : Type) : Type where
  fileId : HirFileId
  value : α
deriving DecidableEq, Repr

/-- The node kinds the container classifier distinguishes (the `ast::Item`
variants matched in `container_to_def`, plus `Variant`, `BlockExpr`,
`SourceFile` and a catch-all). -/
inductive NodeKind : Type
  | module | trait_ | traitAlias | impl_ | enum_ | struct_ | union_
  | fn_ | static_ | const_ | typeAlias | variant | blockExpr | sourceFile | other
deriving DecidableEq, Repr

/-- Semantic definition identifiers, one constructor per interned id kind. -/
inductive DefId : Type
  | moduleD (n : Nat)
  | trait_ (n : Nat)
  | traitAlias (n : Nat)
  | impl_ (n : Nat)
  | enum_ (n : Nat)
  | struct_ (n : Nat)
  | union_ (n : Nat)
  | fn_ (n : Nat)
  | static_ (n : Nat)
  | const_ (n : Nat)
  | typeAlias (n : Nat)
  | enumVariant (n : Nat)
  | block (n : Nat)
  | extCrate (n : Nat)
  | extBlock (n : Nat)
  | useDecl (n : Nat)
  | mac2 (n : Nat)
  | macRules (n : Nat)
  | procMac (n : Nat)
  | field (n : Nat)
deriving DecidableEq, Repr

/-- The kind tag of a definition identifier (the typed `Key` a dyn-map
lookup is made under). -/
inductive DefKind : Type
  | moduleD | trait_ | traitAlias | impl_ | enum_ | struct_ | union_
  | fn_ | static_ | const_ | typeAlias | enumVariant | block
  | extCrate | extBlock | useDecl | mac2 | macRules | procMac | field
deriving DecidableEq, Repr

/-- Kind of a `DefId`. -/
def DefId.kindOf : DefId → DefKind
  | .moduleD _ => .moduleD
  | .trait_ _ => .trait_
  | .traitAlias _ => .traitAlias
  | .impl_ _ => .impl_
  | .enum_ _ => .enum_
  | .struct_ _ => .struct_
  | .union_ _ => .union_
  | .fn_ _ => .fn_
  | .static_ _ => .static_
  | .const_ _ => .const_
  | .typeAlias _ => .typeAlias
  | .enumVariant _ => .enumVariant
  | .block _ => .block
  | .extCrate _ => .extCrate
  | .extBlock _ => .extBlock
  | .useDecl _ => .useDecl
  | .mac2 _ => .mac2
  | .macRules _ => .macRules
  | .procMac _ => .procMac
  | .field _ => .field

/-- Rust `VariantId`: an enum variant, a struct (through its single implicit
variant) or a union. -/
inductive VariantKey : Type
  | enumVar (n : Nat)
  | structV (n : Nat)
  | unionV (n : Nat)
deriving DecidableEq, Repr

/-- Rust `DefWithBodyId` as used by `container_to_def`. -/
inductive BodyKey : Type
  | fnB (n : Nat)
  | staticB (n : Nat)
  | constB (n : Nat)
  | varB (n : Nat)
deriving DecidableEq, Repr

/-- Rust `ChildContainer` from source_to_def.rs: the tagged union of semantic
containers whose children can be enumerated. -/
inductive ChildContainer : Type
  | defWithBodyId (b : BodyKey)
  | moduleId (n : Nat)
  | traitId (n : Nat)
  | traitAliasId (n : Nat)
  | implId (n : Nat)
  | enumId (n : Nat)
  | variantId (v : VariantKey)
  | typeAliasId (n : Nat)
  | genericDefId (d : DefId)
deriving DecidableEq, Repr

/-- Generic-parameter data of a `GenericDefId` as supplied by the external
lowering: the arena indices of its type-or-const parameters
(`generic_params.iter_type_or_consts()`), the file of its parameter list and
the explicitly written parameter syntax nodes
(`file_id_and_params_of`). -/
structure GenericsOf : Type where
  idxs : List Nat
  fileId : HirFileId
  paramsList : Option (List Nat)
deriving DecidableEq, Repr

/-- The external collaborators consumed by the subsystem: parent pointers and
node kinds per file, expansion metadata, crate/module facts for
`file_to_def`, lowered child lists and defining pointers, and module naming
data for `module_to_def`. -/
structure World : Type where
  parent : HirFileId → Nat → Option Nat
  kind : HirFileId → Nat → NodeKind
  expArg : Nat → InFile (Option Nat)
  originalFileOf : HirFileId → Nat
  relevantCrates : Nat → List Nat
  modulesForFile : Nat → Nat → List Nat
  includeInvoc : Nat → List (Nat × Nat)
  callOriginalFile : Nat → Nat
  childrenOf : ChildContainer → List DefId
  defPtr : DefId → InFile Nat
  moduleName : HirFileId → Nat → Option Nat
  moduleChild : Nat → Nat → Option Nat
  blockRootModule : Nat → Nat
  generics : DefId → GenericsOf

/-- Rust `SourceToDefCtx::file_to_def` (source_to_def.rs:130-167): for each crate
relevant to the file, extend with the crate's modules declaring the file;
when that added nothing for this crate, additionally extend with modules of
the original files of the crate's include-invocations expanding into this
file. -/
def fileToDef (w : World) (file : Nat) : List Nat :=
  (w.relevantCrates file).foldl
    (fun mods c =>
      let n := mods.length
      let mods2 := mods ++ w.modulesForFile c file
      if mods2.length = n then
        mods2 ++
          ((w.includeInvoc c).filter (fun p => decide (p.2 = file))).flatMap
            (fun p => w.modulesForFile c (w.callOriginalFile p.1))
      else mods2)
    []

/-- The spec's description of the file-to-module index, written directly
from its words: per relevant crate, the directly declaring modules, or, only
when there are none, the modules owning the original files of the
include-invocations expanding into this file; crates contribute in
discovery order. -/
def fileToDefSpec (w : World) (file : Nat) : List Nat :=
  (w.relevantCrates file).flatMap fun c =>
    let direct := w.modulesForFile c file
    if direct = [] then
      ((w.includeInvoc c).filter (fun p => decide (p.2 = file))).flatMap
        (fun p => w.modulesForFile c (w.callOriginalFile p.1))
    else direct

lemma fileToDef_foldl (w : World) (file : Nat) :
    ∀ (cs : List Nat) (acc : List Nat),
      cs.foldl
        (fun mods c =>
          let n := mods.length
          let mods2 := mods ++ w.modulesForFile c file
          if mods2.length = n then
            mods2 ++
              ((w.includeInvoc c).filter (fun p => decide (p.2 = file))).flatMap
                (fun p => w.modulesForFile c (w.callOriginalFile p.1))
          else mods2)
        acc
      = acc ++ (cs.flatMap fun c =>
          let direct := w.modulesForFile c file
          if direct = [] then
            ((w.includeInvoc c).filter (fun p => decide (p.2 = file))).flatMap
              (fun p => w.modulesForFile c (w.callOriginalFile p.1))
          else direct) := by
  intro cs
  induction cs with
  | nil => intro acc; simp
  | cons c cs ih =>
    intro acc
    rw [List.foldl_cons, ih, List.flatMap_cons]
    by_cases hd : w.modulesForFile c file = []
    · simp [hd]
    · have hlen : (acc ++ w.modulesForFile c file).length ≠ acc.length := by
        simp only [List.length_append]
        intro h
        exact hd (List.eq_nil_of_length_eq_zero (by omega))
      simp only [hlen, if_neg, if_false, hd, List.append_assoc]

lemma fileToDef_eq_spec (w : World) (file : Nat) :
    fileToDef w file = fileToDefSpec w file := by
  unfold fileToDef fileToDefSpec
  rw [fileToDef_foldl]
  simp

/-- The per-(container, file) Identity Map fragment inverted for the
src-to-def lookup: a typed association of (key descriptor, syntax pointer)
to a definition identifier. -/
abbrev DynMapM : Type := List (DefKind × Nat × DefId)

/-- Lookup in an Identity Map fragment under a typed key descriptor
(`map[key].get(&AstPtr::new(src.value))`). -/
def dynGet (m : DynMapM) (k : DefKind) (p : Nat) : Option DefId :=
  (m.find? fun e => decide (e.1 = k ∧ e.2.1 = p)).map fun e => e.2.2

/-- Modelled from the spec: the per-container-kind `ChildBySource`
implementations of hir-def are not part of the excerpt; per the spec the
Child Enumerator takes the container's already-computed semantic children
and inserts each child under its defining structural pointer, restricted to
the queried file. -/
def childEntries (w : World) (c : ChildContainer) (fl : HirFileId) : DynMapM :=
  ((w.childrenOf c).filter fun d => decide ((w.defPtr d).fileId = fl)).map
    fun d => (d.kindOf, (w.defPtr d).value, d)

/-- Rust `ChildContainer::child_by_source` (source_to_def.rs:770-793): trait-alias
and type-alias containers yield `DynMap::default()`; every other container
kind delegates to its child enumeration. -/
def childBySource (w : World) (c : ChildContainer) (fl : HirFileId) : DynMapM :=
  match c with
  | .traitAliasId _ => []
  | .typeAliasId _ => []
  | _ => childEntries w c fl

/-- Container kinds whose `child_by_source` delegates to a child enumeration
(everything except trait aliases and type aliases). -/
def ChildContainer.delegates : ChildContainer → Bool
  | .traitAliasId _ => false
  | .typeAliasId _ => false
  | _ => true

lemma childBySource_delegates (w : World) (c : ChildContainer) (fl : HirFileId)
    (h : c.delegates = true) : childBySource w c fl = childEntries w c fl := by
  cases c <;> first | rfl | exact absurd h (by simp [ChildContainer.delegates])

/-- The inner `parent` closure of `ancestors_with_macros`
(source_to_def.rs:603-616): the syntactic parent when there is one;
otherwise, for the root of an expansion tree, the parent of the expansion's
argument-site node in the originating file. -/
def parentOf (w : World) (node : InFile Nat) : Option (InFile Nat) :=
  match w.parent node.fileId node.value with
  | some p => some ⟨node.fileId, p⟩
  | none =>
    match node.fileId with
    | .real _ => none
    | .exp m =>
      let arg := w.expArg m
      match arg.value with
      | none => none
      | some a =>
        match w.parent arg.fileId a with
        | some pa => some ⟨arg.fileId, pa⟩
        | none => none

mutual

/-- Rust `SourceToDefCtx::to_def` composed with `dyn_map` and `cache_for`
(source_to_def.rs:463-492): find the container of the node, enumerate that
container's children for the node's file and look the node's pointer up
under the typed key.  `fuel` bounds the recursion depth (finite in reality
because each recursive call moves to a strict ancestor). -/
def toDef (w : World) (fuel : Nat) (src : InFile Nat) (key : DefKind) : Option DefId :=
  match fuel with
  | 0 => none
  | f + 1 =>
    match findContainer w f src with
    | none => none
    | some c => dynGet (childBySource w c src.fileId) key src.value

/-- Rust `SourceToDefCtx::find_container` (source_to_def.rs:576-594): the first
ancestor that resolves to a container, else the first module owning the
node's original file. -/
def findContainer (w : World) (fuel : Nat) (src : InFile Nat) : Option ChildContainer :=
  match fuel with
  | 0 => none
  | f + 1 =>
    match ancestorsCont w f src with
    | some d => some d
    | none =>
      match (fileToDef w (w.originalFileOf src.fileId)).head? with
      | some m => some (ChildContainer.moduleId m)
      | none => none

/-- Rust `ancestors_with_macros` specialised to the `container_to_def` callback
(source_to_def.rs:597-625): repeatedly step to the parent (crossing
expansion boundaries) and return the first ancestor the callback accepts. -/
def ancestorsCont (w : World) (fuel : Nat) (node : InFile Nat) : Option ChildContainer :=
  match fuel with
  | 0 => none
  | f + 1 =>
    match parentOf w node with
    | none => none
    | some p =>
      match containerToDef w f p with
      | some r => some r
      | none => ancestorsCont w f p

/-- Rust `SourceToDefCtx::container_to_def` (source_to_def.rs:691-740): classify
the ancestor node and resolve it to its own definition; structs and unions
become variant-level containers, enums stay enum containers, bodies become
`DefWithBodyId` containers. -/
def containerToDef (w : World) (fuel : Nat) (container : InFile Nat) : Option ChildContainer :=
  match fuel with
  | 0 => none
  | f + 1 =>
    match w.kind container.fileId container.value with
    | NodeKind.module =>
      match moduleToDef w f container with
      | some m => some (ChildContainer.moduleId m)
      | none => none
    | NodeKind.trait_ =>
      match toDef w f container DefKind.trait_ with
      | some (DefId.trait_ n) => some (ChildContainer.traitId n)
      | _ => none
    | NodeKind.traitAlias =>
      match toDef w f container DefKind.traitAlias with
      | some (DefId.traitAlias n) => some (ChildContainer.traitAliasId n)
      | _ => none
    | NodeKind.impl_ =>
      match toDef w f container DefKind.impl_ with
      | some (DefId.impl_ n) => some (ChildContainer.implId n)
      | _ => none
    | NodeKind.enum_ =>
      match toDef w f container DefKind.enum_ with
      | some (DefId.enum_ n) => some (ChildContainer.enumId n)
      | _ => none
    | NodeKind.typeAlias =>
      match toDef w f container DefKind.typeAlias with
      | some (DefId.typeAlias n) => some (ChildContainer.typeAliasId n)
      | _ => none
    | NodeKind.struct_ =>
      match toDef w f container DefKind.struct_ with
      | some (DefId.struct_ n) => some (ChildContainer.variantId (VariantKey.structV n))
      | _ => none
    | NodeKind.union_ =>
      match toDef w f container DefKind.union_ with
      | some (DefId.union_ n) => some (ChildContainer.variantId (VariantKey.unionV n))
      | _ => none
    | NodeKind.fn_ =>
      match toDef w f container DefKind.fn_ with
      | some (DefId.fn_ n) => some (ChildContainer.defWithBodyId (BodyKey.fnB n))
      | _ => none
    | NodeKind.static_ =>
      match toDef w f container DefKind.static_ with
      | some (DefId.static_ n) => some (ChildContainer.defWithBodyId (BodyKey.staticB n))
      | _ => none
    | NodeKind.const_ =>
      match toDef w f container DefKind.const_ with
      | some (DefId.const_ n) => some (ChildContainer.defWithBodyId (BodyKey.constB n))
      | _ => none
    | NodeKind.variant =>
      match toDef w f container DefKind.enumVariant with
      | some (DefId.enumVariant n) => some (ChildContainer.defWithBodyId (BodyKey.varB n))
      | _ => none
    | _ => none

/-- Rust `SourceToDefCtx::module_to_def` (source_to_def.rs:169-198): find the
nearest module or block ancestor to obtain the parent module (falling back
to the file's owning module), then look the module's name up among the
parent's children. -/
def moduleToDef (w : World) (fuel : Nat) (src : InFile Nat) : Option Nat :=
  match fuel with
  | 0 => none
  | f + 1 =>
    let parentModule : Option Nat :=
      match ancestorsModBlock w f src with
      | some anc =>
        match w.kind anc.fileId anc.value with
        | NodeKind.blockExpr =>
          match toDef w f anc DefKind.block with
          | some (DefId.block b) => some (w.blockRootModule b)
          | _ => none
        | _ => moduleToDef w f anc
      | none => (fileToDef w (w.originalFileOf src.fileId)).head?
    match parentModule with
    | none => none
    | some pm =>
      match w.moduleName src.fileId src.value with
      | none => none
      | some nm => w.moduleChild pm nm

/-- Rust `ancestors_with_macros` specialised to the module-or-block cast used by
`module_to_def`. -/
def ancestorsModBlock (w : World) (fuel : Nat) (node : InFile Nat) : Option (InFile Nat) :=
  match fuel with
  | 0 => none
  | f + 1 =>
    match parentOf w node with
    | none => none
    | some p =>
      match w.kind p.fileId p.value with
      | NodeKind.module => some p
      | NodeKind.blockExpr => some p
      | _ => ancestorsModBlock w f p

end

/-- The `dynmap_cache` of `SourceToDefCache`: memoized Identity Map
fragments keyed by `(ChildContainer, HirFileId)`. -/
abbrev DynCache : Type := List ((ChildContainer × HirFileId) × DynMapM)

/-- Rust `SourceToDefCtx::cache_for` (source_to_def.rs:481-492):
`entry((container, file)).or_insert_with(|| container.child_by_source(..))`.
Returns the fragment, the updated cache and whether `child_by_source` was
actually computed on this call. -/
def cacheFor (w : World) (cache : DynCache) (c : ChildContainer) (fl : HirFileId) :
    DynMapM × DynCache × Bool :=
  match cache.find? fun e => decide (e.1 = (c, fl)) with
  | some e => (e.2, cache, false)
  | none =>
    let m := childBySource w c fl
    (m, ((c, fl), m) :: cache, true)

/-- Type tags of the anymap inside `DynMap`: for each key descriptor `k`,
the forward Rust type `FxHashMap<ID, AstPtr<AST>>` and the transposed type
`FxHashMap<AstPtr<AST>, ID>` are distinct anymap slots. -/
inductive TypeTag : Type
  | defToPtr (k : Nat)
  | ptrToDef (k : Nat)
deriving DecidableEq, Repr

/-- The `DynMap` anymap: a list of typed slots, each an association list
(ids and pointers are untyped as `Nat` here). -/
structure DynMapAny : Type where
  map : List (TypeTag × List (Nat × Nat))
deriving DecidableEq, Repr

/-- Retrieval from the anymap of the slot with a given type tag. -/
def anyGet (m : List (TypeTag × List (Nat × Nat))) (t : TypeTag) :
    Option (List (Nat × Nat)) :=
  (m.find? fun e => decide (e.1 = t)).map fun e => e.2

/-- Overwriting insertion into a hash-map slot. -/
def assocInsert (l : List (Nat × Nat)) (key val : Nat) : List (Nat × Nat) :=
  if l.any fun q => decide (q.1 = key) then
    l.map fun q => if q.1 = key then (key, val) else q
  else (key, val) :: l

/-- Rust `DefIdPolicy::insert` (def_to_src.rs:66-71):
`map.map.entry::<FxHashMap<ID, AstPtr<AST>>>().or_insert_with(..).insert(key, value)`
— the slot touched is the forward `defToPtr` tag. -/
def policyInsert (k : Nat) (m : DynMapAny) (key val : Nat) : DynMapAny :=
  if m.map.any fun e => decide (e.1 = TypeTag.defToPtr k) then
    ⟨m.map.map fun e =>
      if e.1 = TypeTag.defToPtr k then (e.1, assocInsert e.2 key val) else e⟩
  else ⟨(TypeTag.defToPtr k, [(key, val)]) :: m.map⟩

/-- Rust `DefIdPolicy::get` (def_to_src.rs:72-74): lookup in the forward
`defToPtr` slot. -/
def policyGet (k : Nat) (m : DynMapAny) (key : Nat) : Option Nat :=
  match anyGet m.map (TypeTag.defToPtr k) with
  | none => none
  | some l => (l.find? fun q => decide (q.1 = key)).map fun q => q.2

/-- Rust `DefIdPolicy::is_empty` (def_to_src.rs:75-77):
`map.map.get::<FxHashMap<AstPtr<AST>, ID>>().map_or(true, |it| it.is_empty())`
— note that the slot consulted carries the transposed `ptrToDef` tag, not
the tag `insert` and `get` use. -/
def policyIsEmpty (k : Nat) (m : DynMapAny) : Bool :=
  match anyGet m.map (TypeTag.ptrToDef k) with
  | none => true
  | some l => l.isEmpty

/-- Result of a definition-to-source operation: a value, or an unconditional
abort (`todo!()`). -/
inductive SrcResult (α : Type) : Type
  | ok (val : α)
  | aborted
deriving DecidableEq, Repr

/-- The `HasSource` implementations of hir-def/src/src.rs as a dispatcher
over id kinds: `none` where no implementation exists; implemented kinds
return the stored location's pointer (src.rs:41-389, via `ast_ptr`);
`ExternCrateId`, `ExternBlockId` and `UseId` are `todo!()`
(src.rs:391-437). -/
def hasSourceAstPtr (w : World) (d : DefId) : Option (SrcResult (InFile Nat)) :=
  match d with
  | .struct_ _ | .union_ _ | .enum_ _ | .enumVariant _ | .fn_ _ | .const_ _
  | .static_ _ | .trait_ _ | .traitAlias _ | .typeAlias _ | .mac2 _
  | .macRules _ | .procMac _ | .impl_ _ => some (SrcResult.ok (w.defPtr d))
  | .extCrate _ => some SrcResult.aborted
  | .extBlock _ => some SrcResult.aborted
  | .useDecl _ => some SrcResult.aborted
  | _ => none

/-- The syntax side of a generic-parameter child source entry: either an
explicitly written parameter node or the trait / trait-alias declaration
itself (the implicit `Self`). -/
inductive TraitOrAlias : Type
  | traitSrc (node : Nat)
  | traitAliasSrc (node : Nat)
deriving DecidableEq, Repr

/-- The explicit-parameter entries: indices zipped against the written
generic-parameter list when one exists. -/
def explicitEntries (idxs : List Nat) (ps : Option (List Nat)) :
    List (Nat × (Nat ⊕ TraitOrAlias)) :=
  match ps with
  | some l => (idxs.zip l).map fun q => (q.1, Sum.inl q.2)
  | none => []

/-- Rust `HasChildSource<LocalTypeOrConstParamId> for GenericDefId`
(src.rs:476-513): for traits and trait aliases the first type index is the
implicit `Self`, associated with the declaration node itself
(`idx_iter.next().unwrap()` — `none` models the abort on an empty index
iterator); the remaining indices are zipped against the written parameter
list. -/
def childSourceTypeOrConst (w : World) (d : DefId) :
    Option (InFile (List (Nat × (Nat ⊕ TraitOrAlias)))) :=
  let g := w.generics d
  match d with
  | DefId.trait_ n =>
    match g.idxs with
    | [] => none
    | i :: rest =>
      some ⟨g.fileId,
        (i, Sum.inr (TraitOrAlias.traitSrc (w.defPtr (DefId.trait_ n)).value)) ::
          explicitEntries rest g.paramsList⟩
  | DefId.traitAlias n =>
    match g.idxs with
    | [] => none
    | i :: rest =>
      some ⟨g.fileId,
        (i, Sum.inr (TraitOrAlias.traitAliasSrc (w.defPtr (DefId.traitAlias n)).value)) ::
          explicitEntries rest g.paramsList⟩
  | _ => some ⟨g.fileId, explicitEntries g.idxs g.paramsList⟩

/-- A world with empty collaborator data, used as the base of the concrete
worlds below. -/
def w0 : World where
  parent := fun _ _ => none
  kind := fun _ _ => NodeKind.other
  expArg := fun _ => ⟨HirFileId.real 0, none⟩
  originalFileOf := fun _ => 0
  relevantCrates := fun _ => []
  modulesForFile := fun _ _ => []
  includeInvoc := fun _ => []
  callOriginalFile := fun _ => 0
  childrenOf := fun _ => []
  defPtr := fun _ => ⟨HirFileId.real 0, 0⟩
  moduleName := fun _ _ => none
  moduleChild := fun _ _ => none
  blockRootModule := fun _ => 0
  generics := fun _ => ⟨[], HirFileId.real 0, none⟩

/-- One real file 0 owned by module 7 of crate 0; node 1 is the file root,
node 2 a function item defining `fn_ 3`, a child of module 7. -/
def w1 : World :=
  { w0 with
    parent := fun fid n =>
      match fid, n with
      | HirFileId.real 0, 2 => some 1
      | _, _ => none
    kind := fun fid n =>
      match fid, n with
      | HirFileId.real 0, 1 => NodeKind.sourceFile
      | HirFileId.real 0, 2 => NodeKind.fn_
      | _, _ => NodeKind.other
    relevantCrates := fun _ => [0]
    modulesForFile := fun c f => match c, f with | 0, 0 => [7] | _, _ => []
    childrenOf := fun c =>
      match c with
      | ChildContainer.moduleId 7 => [DefId.fn_ 3]
      | _ => []
    defPtr := fun d =>
      match d with
      | DefId.fn_ 3 => ⟨HirFileId.real 0, 2⟩
      | _ => ⟨HirFileId.real 0, 0⟩ }

lemma toDef_succ (w : World) (f : Nat) (src : InFile Nat) (key : DefKind) :
    toDef w (f + 1) src key =
      match findContainer w f src with
      | none => none
      | some c => dynGet (childBySource w c src.fileId) key src.value := rfl

lemma findContainer_succ (w : World) (f : Nat) (src : InFile Nat) :
    findContainer w (f + 1) src =
      match ancestorsCont w f src with
      | some d => some d
      | none =>
        match (fileToDef w (w.originalFileOf src.fileId)).head? with
        | some m => some (ChildContainer.moduleId m)
        | none => none := rfl

lemma ancestorsCont_succ (w : World) (f : Nat) (node : InFile Nat) :
    ancestorsCont w (f + 1) node =
      match parentOf w node with
      | none => none
      | some p =>
        match containerToDef w f p with
        | some r => some r
        | none => ancestorsCont w f p := rfl

lemma findContainer_of_anc (w : World) (g : Nat) (src : InFile Nat) (r : ChildContainer)
    (h : ancestorsCont w g src = some r) : findContainer w (g + 1) src = some r := by
  rw [findContainer_succ, h]

lemma ancestorsCont_found (w : World) (g : Nat) (node p : InFile Nat) (r : ChildContainer)
    (hp : parentOf w node = some p) (hc : containerToDef w g p = some r) :
    ancestorsCont w (g + 1) node = some r := by
  rw [ancestorsCont_succ, hp]
  show (match containerToDef w g p with
    | some r' => some r'
    | none => ancestorsCont w g p) = some r
  rw [hc]

lemma containerToDef_succ (w : World) (f : Nat) (p : InFile Nat) :
    containerToDef w (f + 1) p =
      match w.kind p.fileId p.value with
      | NodeKind.module =>
        (match moduleToDef w f p with
         | some m => some (ChildContainer.moduleId m)
         | none => none)
      | NodeKind.trait_ =>
        (match toDef w f p DefKind.trait_ with
         | some (DefId.trait_ n) => some (ChildContainer.traitId n)
         | _ => none)
      | NodeKind.traitAlias =>
        (match toDef w f p DefKind.traitAlias with
         | some (DefId.traitAlias n) => some (ChildContainer.traitAliasId n)
         | _ => none)
      | NodeKind.impl_ =>
        (match toDef w f p DefKind.impl_ with
         | some (DefId.impl_ n) => some (ChildContainer.implId n)
         | _ => none)
      | NodeKind.enum_ =>
        (match toDef w f p DefKind.enum_ with
         | some (DefId.enum_ n) => some (ChildContainer.enumId n)
         | _ => none)
      | NodeKind.typeAlias =>
        (match toDef w f p DefKind.typeAlias with
         | some (DefId.typeAlias n) => some (ChildContainer.typeAliasId n)
         | _ => none)
      | NodeKind.struct_ =>
        (match toDef w f p DefKind.struct_ with
         | some (DefId.struct_ n) => some (ChildContainer.variantId (VariantKey.structV n))
         | _ => none)
      | NodeKind.union_ =>
        (match toDef w f p DefKind.union_ with
         | some (DefId.union_ n) => some (ChildContainer.variantId (VariantKey.unionV n))
         | _ => none)
      | NodeKind.fn_ =>
        (match toDef w f p DefKind.fn_ with
         | some (DefId.fn_ n) => some (ChildContainer.defWithBodyId (BodyKey.fnB n))
         | _ => none)
      | NodeKind.static_ =>
        (match toDef w f p DefKind.static_ with
         | some (DefId.static_ n) => some (ChildContainer.defWithBodyId (BodyKey.staticB n))
         | _ => none)
      | NodeKind.const_ =>
        (match toDef w f p DefKind.const_ with
         | some (DefId.const_ n) => some (ChildContainer.defWithBodyId (BodyKey.constB n))
         | _ => none)
      | NodeKind.variant =>
        (match toDef w f p DefKind.enumVariant with
         | some (DefId.enumVariant n) => some (ChildContainer.defWithBodyId (BodyKey.varB n))
         | _ => none)
      | _ => none := rfl

lemma dynGet_childEntries (w : World) (c : ChildContainer) (d : DefId)
    (hmem : d ∈ w.childrenOf c)
    (hinj : ∀ d' ∈ w.childrenOf c, d'.kindOf = d.kindOf →
      (w.defPtr d').fileId = (w.defPtr d).fileId →
      (w.defPtr d').value = (w.defPtr d).value → d' = d) :
    dynGet (childEntries w c (w.defPtr d).fileId) d.kindOf (w.defPtr d).value = some d := by
  have hd_in :
      (d.kindOf, (w.defPtr d).value, d) ∈ childEntries w c (w.defPtr d).fileId := by
    exact List.mem_map.mpr ⟨d, List.mem_filter.mpr ⟨hmem, by simp⟩, rfl⟩
  unfold dynGet
  cases hfind : (childEntries w c (w.defPtr d).fileId).find?
      (fun e => decide (e.1 = d.kindOf ∧ e.2.1 = (w.defPtr d).value)) with
  | none =>
    exact absurd (by simp : (decide (d.kindOf = d.kindOf ∧
        (w.defPtr d).value = (w.defPtr d).value)) = true)
      (by simpa using List.find?_eq_none.mp hfind _ hd_in)
  | some e =>
    have he1 := List.find?_some hfind
    have he2 := List.mem_of_find?_eq_some hfind
    obtain ⟨d', hd', hge⟩ := List.mem_map.mp he2
    obtain ⟨hd'mem, hd'file⟩ := List.mem_filter.mp hd'
    subst hge
    simp only [decide_eq_true_eq] at he1 hd'file
    have : d' = d := hinj d' hd'mem he1.1 hd'file he1.2
    subst this
    rfl

/-- C1: round-trip — for a definition `d` with a syntax-backed source, when
the container classifier resolves `d`'s defining node to `d`'s own container
(one whose child enumeration is populated), the source-to-definition lookup
for `d`'s kind (`to_def`, looking the node's pointer up in the container's
child Identity Map) returns exactly `d`, provided `d` is among the
container's children and defining pointers are injective per kind within
the container. -/
theorem c1_round_trip (w : World) (f : Nat) (d : DefId) (c : ChildContainer)
    (hfc : findContainer w f (w.defPtr d) = some c)
    (hdel : c.delegates = true)
    (hmem : d ∈ w.childrenOf c)
    (hinj : ∀ d' ∈ w.childrenOf c, d'.kindOf = d.kindOf →
      (w.defPtr d').fileId = (w.defPtr d).fileId →
      (w.defPtr d').value = (w.defPtr d).value → d' = d) :
    toDef w (f + 1) (w.defPtr d) d.kindOf = some d := by
  rw [toDef_succ, hfc]
  show dynGet (childBySource w c (w.defPtr d).fileId) d.kindOf (w.defPtr d).value = some d
  rw [childBySource_delegates w c _ hdel]
  exact dynGet_childEntries w c d hmem hinj

theorem c1_round_trip_witness :
    toDef w1 4 ⟨HirFileId.real 0, 2⟩ DefKind.fn_ = some (DefId.fn_ 3) :=
  c1_round_trip w1 3 (DefId.fn_ 3) (ChildContainer.moduleId 7) (by decide) (by decide)
    (by decide) (by decide)

/-- One real file 0 owned by module 7 of crate 0; node 0 is an enum item
defining `enum_ 5`, node 1 a node inside it. -/
def w3 : World :=
  { w0 with
    parent := fun fid n =>
      match fid, n with
      | HirFileId.real 0, 1 => some 0
      | _, _ => none
    kind := fun fid n =>
      match fid, n with
      | HirFileId.real 0, 0 => NodeKind.enum_
      | _, _ => NodeKind.other
    relevantCrates := fun _ => [0]
    modulesForFile := fun c f => match c, f with | 0, 0 => [7] | _, _ => []
    childrenOf := fun c =>
      match c with
      | ChildContainer.moduleId 7 => [DefId.enum_ 5]
      | _ => []
    defPtr := fun d =>
      match d with
      | DefId.enum_ 5 => ⟨HirFileId.real 0, 0⟩
      | _ => ⟨HirFileId.real 0, 9⟩ }

/-- C3, counterexample: for a node whose nearest recognized ancestor item is
an enum, `container_to_def` (and hence `find_container`) yields the enum
item container itself (`ChildContainer::EnumId`), not a variant-level
container — refuting the claim for the enum case. -/
theorem c3_counterexample :
    containerToDef w3 4 ⟨HirFileId.real 0, 0⟩ = some (ChildContainer.enumId 5) ∧
    findContainer w3 6 ⟨HirFileId.real 0, 1⟩ = some (ChildContainer.enumId 5) ∧
    ∀ v, ChildContainer.enumId 5 ≠ ChildContainer.variantId v := by
  refine ⟨by decide, by decide, fun v h => ChildContainer.noConfusion h⟩

/-- C3, amended: when the first ancestor `p` of a node is a struct or union
item, `find_container` returns the variant-level container wrapping the
resolved id; when it is an enum item, `find_container` returns the enum
container itself (whose enumerable children are its variants). -/
theorem c3_amended (w : World) (f : Nat) (src p : InFile Nat)
    (hp : parentOf w src = some p) :
    (∀ n, w.kind p.fileId p.value = NodeKind.struct_ →
      toDef w f p DefKind.struct_ = some (DefId.struct_ n) →
      findContainer w (f + 3) src =
        some (ChildContainer.variantId (VariantKey.structV n))) ∧
    (∀ n, w.kind p.fileId p.value = NodeKind.union_ →
      toDef w f p DefKind.union_ = some (DefId.union_ n) →
      findContainer w (f + 3) src =
        some (ChildContainer.variantId (VariantKey.unionV n))) ∧
    (∀ n, w.kind p.fileId p.value = NodeKind.enum_ →
      toDef w f p DefKind.enum_ = some (DefId.enum_ n) →
      findContainer w (f + 3) src = some (ChildContainer.enumId n)) := by
  refine ⟨?_, ?_, ?_⟩
  · intro n hk htd
    have hcont : containerToDef w (f + 1) p =
        some (ChildContainer.variantId (VariantKey.structV n)) := by
      rw [containerToDef_succ, hk, htd]
    exact findContainer_of_anc w (f + 1 + 1) src _
      (ancestorsCont_found w (f + 1) src p _ hp hcont)
  · intro n hk htd
    have hcont : containerToDef w (f + 1) p =
        some (ChildContainer.variantId (VariantKey.unionV n)) := by
      rw [containerToDef_succ, hk, htd]
    exact findContainer_of_anc w (f + 1 + 1) src _
      (ancestorsCont_found w (f + 1) src p _ hp hcont)
  · intro n hk htd
    have hcont : containerToDef w (f + 1) p = some (ChildContainer.enumId n) := by
      rw [containerToDef_succ, hk, htd]
    exact findContainer_of_anc w (f + 1 + 1) src _
      (ancestorsCont_found w (f + 1) src p _ hp hcont)

/-- One real file 0 owned by module 7 of crate 0; node 0 is a struct item
defining `struct_ 9`, node 1 a node inside it. -/
def w4 : World :=
  { w0 with
    parent := fun fid n =>
      match fid, n with
      | HirFileId.real 0, 1 => some 0
      | _, _ => none
    kind := fun fid n =>
      match fid, n with
      | HirFileId.real 0, 0 => NodeKind.struct_
      | _, _ => NodeKind.other
    relevantCrates := fun _ => [0]
    modulesForFile := fun c f => match c, f with | 0, 0 => [7] | _, _ => []
    childrenOf := fun c =>
      match c with
      | ChildContainer.moduleId 7 => [DefId.struct_ 9]
      | _ => []
    defPtr := fun d =>
      match d with
      | DefId.struct_ 9 => ⟨HirFileId.real 0, 0⟩
      | _ => ⟨HirFileId.real 0, 9⟩ }

theorem c3_amended_witness :
    findContainer w4 6 ⟨HirFileId.real 0, 1⟩ =
      some (ChildContainer.variantId (VariantKey.structV 9)) :=
  (c3_amended w4 3 ⟨HirFileId.real 0, 1⟩ ⟨HirFileId.real 0, 0⟩ (by decide)).1 9
    (by decide) (by decide)

/-- C4: for the root of an expansion tree the ancestor walk continues from
the expansion's argument-site node in the originating file, so
`find_container` reaches the same container as for a node sitting at the
argument site itself (the macro inlined at its call site); the hypotheses
say the node is such a root, the expansion has an argument-site node `a`,
and `a` has a syntactic parent. -/
theorem c4_expansion_walk (w : World) (fuel m n a pa : Nat) (fF : HirFileId)
    (h1 : w.parent (HirFileId.exp m) n = none)
    (h2 : w.expArg m = ⟨fF, some a⟩)
    (h3 : w.parent fF a = some pa)
    (h4 : w.originalFileOf (HirFileId.exp m) = w.originalFileOf fF) :
    findContainer w (fuel + 1) ⟨HirFileId.exp m, n⟩ =
      findContainer w (fuel + 1) ⟨fF, a⟩ := by
  have hpar : parentOf w ⟨HirFileId.exp m, n⟩ = some ⟨fF, pa⟩ := by
    simp [parentOf, h1, h2, h3]
  have hpar2 : parentOf w ⟨fF, a⟩ = some ⟨fF, pa⟩ := by
    simp [parentOf, h3]
  have hanc : ∀ g, ancestorsCont w g ⟨HirFileId.exp m, n⟩ = ancestorsCont w g ⟨fF, a⟩ := by
    intro g
    cases g with
    | zero => rfl
    | succ g' => rw [ancestorsCont, ancestorsCont, hpar, hpar2]
  rw [findContainer, findContainer, hanc fuel]
  simp only [h4]

/-- Expansion file 0 whose argument site is node 5 of real file 0, itself a
child of node 6. -/
def w8 : World :=
  { w0 with
    parent := fun fid n =>
      match fid, n with
      | HirFileId.real 0, 5 => some 6
      | _, _ => none
    expArg := fun _ => ⟨HirFileId.real 0, some 5⟩ }

theorem c4_expansion_walk_witness :
    findContainer w8 3 ⟨HirFileId.exp 0, 0⟩ = findContainer w8 3 ⟨HirFileId.real 0, 5⟩ :=
  c4_expansion_walk w8 2 0 0 5 6 (HirFileId.real 0) (by decide) (by decide) (by decide)
    (by decide)

/-- C2: evidence of the divergence — after `DefIdPolicy::insert` of an
association under a descriptor into an empty `DynMap`, `get` under the same
descriptor finds the association, yet `is_empty` still reports `true`,
because it consults the transposed map type, which `insert` never
populates. -/
theorem c2_is_empty_after_insert :
    policyGet 0 (policyInsert 0 ⟨[]⟩ 0 0) 0 = some 0 ∧
    policyIsEmpty 0 (policyInsert 0 ⟨[]⟩ 0 0) = true := by decide

/-- C5: evidence of the divergence — the definition-to-source operations for
extern-crate, extern-block and use-declaration ids unconditionally abort
(`todo!()` in src.rs:391-437), while the implemented kinds return the
stored pointer. -/
theorem c5_todo_aborts (w : World) :
    hasSourceAstPtr w (DefId.extCrate 0) = some SrcResult.aborted ∧
    hasSourceAstPtr w (DefId.extBlock 0) = some SrcResult.aborted ∧
    hasSourceAstPtr w (DefId.useDecl 0) = some SrcResult.aborted ∧
    hasSourceAstPtr w (DefId.struct_ 0) = some (SrcResult.ok (w.defPtr (DefId.struct_ 0))) :=
  ⟨rfl, rfl, rfl, rfl⟩

lemma explicitEntries_nil (ps : Option (List Nat)) : explicitEntries [] ps = [] := by
  cases ps <;> rfl

/-- C6: for a trait or trait alias, the generic-parameter child source maps
the first type-parameter index (the implicit `Self`) to the declaration node
itself, ahead of the explicitly written parameters; with a single index 0
(a trait with zero explicit generic parameters) the map is exactly the one
`Self` entry at index 0. -/
theorem c6_trait_self_first (w : World) (n m i j : Nat) (rest rest2 : List Nat)
    (h1 : (w.generics (DefId.trait_ n)).idxs = i :: rest)
    (h2 : (w.generics (DefId.traitAlias m)).idxs = j :: rest2) :
    childSourceTypeOrConst w (DefId.trait_ n) =
      some ⟨(w.generics (DefId.trait_ n)).fileId,
        (i, Sum.inr (TraitOrAlias.traitSrc (w.defPtr (DefId.trait_ n)).value)) ::
          explicitEntries rest (w.generics (DefId.trait_ n)).paramsList⟩ ∧
    childSourceTypeOrConst w (DefId.traitAlias m) =
      some ⟨(w.generics (DefId.traitAlias m)).fileId,
        (j, Sum.inr (TraitOrAlias.traitAliasSrc (w.defPtr (DefId.traitAlias m)).value)) ::
          explicitEntries rest2 (w.generics (DefId.traitAlias m)).paramsList⟩ ∧
    (i = 0 → rest = [] →
      childSourceTypeOrConst w (DefId.trait_ n) =
        some ⟨(w.generics (DefId.trait_ n)).fileId,
          [(0, Sum.inr (TraitOrAlias.traitSrc (w.defPtr (DefId.trait_ n)).value))]⟩) := by
  have e1 : childSourceTypeOrConst w (DefId.trait_ n) =
      some ⟨(w.generics (DefId.trait_ n)).fileId,
        (i, Sum.inr (TraitOrAlias.traitSrc (w.defPtr (DefId.trait_ n)).value)) ::
          explicitEntries rest (w.generics (DefId.trait_ n)).paramsList⟩ := by
    simp only [childSourceTypeOrConst]
    rw [h1]
  have e2 : childSourceTypeOrConst w (DefId.traitAlias m) =
      some ⟨(w.generics (DefId.traitAlias m)).fileId,
        (j, Sum.inr (TraitOrAlias.traitAliasSrc (w.defPtr (DefId.traitAlias m)).value)) ::
          explicitEntries rest2 (w.generics (DefId.traitAlias m)).paramsList⟩ := by
    simp only [childSourceTypeOrConst]
    rw [h2]
  refine ⟨e1, e2, ?_⟩
  intro hi hrest
  subst hi hrest
  rw [e1, explicitEntries_nil]

/-- A trait `trait_ 1` declared at node 3 whose generic parameters are just
the implicit `Self` at index 0, and a trait alias `traitAlias 2` declared at
node 4 with `Self` at index 0 plus one written parameter (node 5) at
index 1. -/
def w7 : World :=
  { w0 with
    generics := fun d =>
      match d with
      | DefId.trait_ 1 => ⟨[0], HirFileId.real 0, none⟩
      | DefId.traitAlias 2 => ⟨[0, 1], HirFileId.real 0, some [5]⟩
      | _ => ⟨[], HirFileId.real 0, none⟩
    defPtr := fun d =>
      match d with
      | DefId.trait_ 1 => ⟨HirFileId.real 0, 3⟩
      | DefId.traitAlias 2 => ⟨HirFileId.real 0, 4⟩
      | _ => ⟨HirFileId.real 0, 0⟩ }

theorem c6_trait_self_first_witness :
    childSourceTypeOrConst w7 (DefId.trait_ 1) =
      some ⟨HirFileId.real 0, [(0, Sum.inr (TraitOrAlias.traitSrc 3))]⟩ :=
  (c6_trait_self_first w7 1 2 0 0 [] [1] (by decide) (by decide)).2.2 rfl rfl

/-- C7: the file-to-module index computes, crate by crate in discovery
order, the modules directly declaring the file, and falls back to the
include-invocation search only for a crate that declared none; a file in
two crates' module trees therefore contributes both crates' modules. -/
theorem c7_file_to_def (w : World) (file : Nat) :
    fileToDef w file = fileToDefSpec w file :=
  fileToDef_eq_spec w file

/-- C8: a file detached from every relevant crate's module tree yields the
empty module sequence from the file-to-module index (a legitimate empty
result of a total function, not an absent value and not an abort). -/
theorem c8_detached (w : World) (file : Nat)
    (h1 : ∀ c ∈ w.relevantCrates file, w.modulesForFile c file = [])
    (h2 : ∀ c ∈ w.relevantCrates file, ∀ p ∈ w.includeInvoc c, p.2 = file →
      w.modulesForFile c (w.callOriginalFile p.1) = []) :
    fileToDef w file = [] := by
  rw [fileToDef_eq_spec]
  unfold fileToDefSpec
  rw [List.flatMap_eq_nil_iff]
  intro c hc
  rw [h1 c hc, if_pos rfl, List.flatMap_eq_nil_iff]
  intro p hp
  obtain ⟨hpmem, hpfile⟩ := List.mem_filter.mp hp
  exact h2 c hc p hpmem (by simpa using hpfile)

/-- A world where crate 0 is relevant to file 0 but declares no modules for
any file and has no include-invocations. -/
def w6 : World :=
  { w0 with relevantCrates := fun _ => [0] }

theorem c8_detached_witness : fileToDef w6 0 = [] :=
  c8_detached w6 0 (by decide) (by decide)

/-- C9: re-querying the per-(container, file) cache returns the very entry
stored by the first query, leaves the cache unchanged and does not compute
`child_by_source` again. -/
theorem c9_cache_stable (w : World) (s : DynCache) (c : ChildContainer) (fl : HirFileId) :
    cacheFor w (cacheFor w s c fl).2.1 c fl =
      ((cacheFor w s c fl).1, (cacheFor w s c fl).2.1, false) := by
  unfold cacheFor
  cases h : s.find? (fun e => decide (e.1 = (c, fl))) with
  | some e => simp [h]
  | none => simp [h, List.find?]

/-- One real file 0 owned by module 7 of crate 0; node 0 is a trait-alias
item defining `traitAlias 4`, node 1 a node inside it. -/
def w5 : World :=
  { w0 with
    parent := fun fid n =>
      match fid, n with
      | HirFileId.real 0, 1 => some 0
      | _, _ => none
    kind := fun fid n =>
      match fid, n with
      | HirFileId.real 0, 0 => NodeKind.traitAlias
      | _, _ => NodeKind.other
    relevantCrates := fun _ => [0]
    modulesForFile := fun c f => match c, f with | 0, 0 => [7] | _, _ => []
    childrenOf := fun c =>
      match c with
      | ChildContainer.moduleId 7 => [DefId.traitAlias 4]
      | _ => []
    defPtr := fun d =>
      match d with
      | DefId.traitAlias 4 => ⟨HirFileId.real 0, 0⟩
      | _ => ⟨HirFileId.real 0, 9⟩ }

/-- C10: trait-alias and type-alias containers have an empty child Identity
Map (`DynMap::default()` in `ChildContainer::child_by_source`), and any
source-to-definition lookup whose computed container is one of them comes
back absent. -/
theorem c10_alias_children (w : World) (fl : HirFileId) (f : Nat) (src : InFile Nat)
    (k : DefKind) (a b : Nat) :
    childBySource w (ChildContainer.traitAliasId a) fl = [] ∧
    childBySource w (ChildContainer.typeAliasId b) fl = [] ∧
    (findContainer w f src = some (ChildContainer.traitAliasId a) →
      toDef w (f + 1) src k = none) ∧
    (findContainer w f src = some (ChildContainer.typeAliasId b) →
      toDef w (f + 1) src k = none) := by
  refine ⟨rfl, rfl, ?_, ?_⟩ <;> intro h <;> rw [toDef_succ, h] <;> rfl

theorem c10_alias_children_witness :
    toDef w5 6 ⟨HirFileId.real 0, 1⟩ DefKind.fn_ = none :=
  (c10_alias_children w5 (HirFileId.real 0) 5 ⟨HirFileId.real 0, 1⟩ DefKind.fn_ 4 0).2.2.1
    (by decide)

end S2D
